import Mathlib

/-
Verification of the StoreKnowledge markdown-editor client.

Each section embeds one slice of the TypeScript client as executable Lean
definitions (pure functions over explicit state; machine behaviour of the
browser runtime abstracted as function parameters) and proves the claimed
properties about them.
-/

/- ===================== DEFINITIONS ===================== -/

/- ---- PDF viewer zoom (src/src/PDFViewer.tsx) ---- -/

/-- Initial zoom scale of the PDF viewer: `useState<number>(1.0)`
(src/src/PDFViewer.tsx line 14).  Scales are modelled as rationals. -/
def pdfInitialScale : ℚ := 1

/-- `handleZoomIn`: `setScale((prevScale) => Math.min(prevScale + 0.1, 2.0))`
(src/src/PDFViewer.tsx lines 63-65). -/
def handleZoomIn (prevScale : ℚ) : ℚ := min (prevScale + 1/10) 2

/-- `handleZoomOut`: `setScale((prevScale) => Math.max(prevScale - 0.1, 0.5))`
(src/src/PDFViewer.tsx lines 67-69). -/
def handleZoomOut (prevScale : ℚ) : ℚ := max (prevScale - 1/10) (1/2)

/-- `handleZoomReset`: `setScale(1.0)` (src/src/PDFViewer.tsx lines 71-73). -/
def handleZoomReset (_prevScale : ℚ) : ℚ := 1

/-- The three zoom operations the PDF viewer toolbar can perform. -/
inductive ZoomOp where
  | zoomIn
  | zoomOut
  | zoomReset
deriving DecidableEq

/-- Apply one toolbar zoom operation to the current scale. -/
def applyZoomOp (s : ℚ) : ZoomOp → ℚ
  | ZoomOp.zoomIn => handleZoomIn s
  | ZoomOp.zoomOut => handleZoomOut s
  | ZoomOp.zoomReset => handleZoomReset s

/-- Scale reached after a sequence of zoom operations from the initial scale. -/
def scaleAfter (ops : List ZoomOp) : ℚ := ops.foldl applyZoomOp pdfInitialScale

/- ---- Auth context: interceptor and logout (src/unnamed/part_004) ---- -/

/-- The `User` DTO of the auth context (src/unnamed/part_004 lines 106-111). -/
structure UserInfo where
  username : String
  email : Option String
  fullName : Option String
  disabled : Option Bool
deriving DecidableEq

/-- Client-side auth state visible to the interceptor and `logout`: the
bearer token stored under the local-storage key `token`, the `user` state
of the auth context, and the current router location. -/
structure AuthClientState where
  token : Option String
  user : Option UserInfo
  route : String
deriving DecidableEq

/-- The error object seen by the axios response interceptor: `error.response`
may be absent (network failure) and otherwise carries a status code. -/
structure HttpFailureResponse where
  status : Nat
deriving DecidableEq

/-- A failed HTTP exchange as delivered to the response interceptor. -/
structure HttpFailure where
  response : Option HttpFailureResponse
deriving DecidableEq

/-- `logout` (src/unnamed/part_004 lines 225-229):
`localStorage.removeItem('token'); setUser(null); navigate('/login')`. -/
def authLogout (s : AuthClientState) : AuthClientState :=
  { s with token := none, user := none, route := "/login" }

/-- The axios response interceptor's error branch
(src/unnamed/part_004 lines 150-159): on a response with status 401 it
calls `logout()` and then `navigate('/login')`; otherwise the state is
untouched and the error is re-thrown. -/
def onResponseError (e : HttpFailure) (s : AuthClientState) : AuthClientState :=
  match e.response with
  | some resp =>
      if resp.status = 401 then
        let s1 := authLogout s
        { s1 with route := "/login" }
      else s
  | none => s

/- ---- Reader component (src/unnamed/part_003) ---- -/

/-- What the Reader component renders after the backend call settled:
either the inline error text, or HTML injected through
`dangerouslySetInnerHTML`. -/
inductive ReaderView where
  | errorText (msg : String)
  | injectedHtml (html : String)
deriving DecidableEq

/-- The Reader's render path (src/unnamed/part_003 lines 21-61): a failed
backend call sets the error text; a successful one stores
`response.data.html` in `renderedContent`, and the component injects
`DOMPurify.sanitize(renderedContent)`.  DOMPurify is external to the
repository, so the sanitizer is a function parameter. -/
def readerView (sanitize : String → String) (outcome : Except String String) :
    ReaderView :=
  match outcome with
  | Except.error _ => ReaderView.errorText "Failed to render content"
  | Except.ok html => ReaderView.injectedHtml (sanitize html)

/- ---- Backend endpoints used by each request site ---- -/

/-- Reader markdown rendering: `axios.post('/api/render/markdown', ...)`
(src/unnamed/part_003 line 24). -/
def readerRenderEndpoint : String := "/api/render/markdown"

/-- `markdownAPI.renderMarkdown`: `request('/api/markdown/render', 'POST', ...)`
(src/src/useSearch.tsx line 232). -/
def markdownAPIRenderEndpoint : String := "/api/markdown/render"

/-- DataView panel query execution: `axios.post('/api/dataview/execute', ...)`
(src/unnamed/part_000 line 77). -/
def dataviewPanelExecuteEndpoint : String := "/api/dataview/execute"

/-- `dataViewAPI.executeQuery`: `request('/api/dataview/query', 'POST', ...)`
(src/src/useSearch.tsx line 243). -/
def dataViewAPIExecuteEndpoint : String := "/api/dataview/query"

/-- Kanban board parsing: `axios.post('/api/kanban/parse', ...)`
(src/src/components/Toast.tsx line 151, KanbanBoard component). -/
def kanbanParseEndpoint : String := "/api/kanban/parse"

/-- PDF viewer export: `axios.post('/api/export/pdf', ...)`
(src/src/PDFViewer.tsx line 34). -/
def pdfViewerExportEndpoint : String := "/api/export/pdf"

/-- `markdownAPI.exportToPdf`: `request('/api/pdf/export?path=...', 'GET', ...)`
(src/src/useSearch.tsx line 235); the path before the query string. -/
def markdownAPIExportPdfEndpoint : String := "/api/pdf/export"

/-- Search component full-text search: `axios.post('/api/search/query', ...)`
(src/src/search.tsx line 63). -/
def searchComponentQueryEndpoint : String := "/api/search/query"

/-- `useSearch.searchFiles`: `axios.post('/api/search/query', ...)`
(src/src/useSearch.tsx line 53). -/
def useSearchQueryEndpoint : String := "/api/search/query"

/-- `searchAPI.searchFiles`: `request('/api/search?q=...')`
(src/src/useSearch.tsx line 226); the path before the query string. -/
def searchAPIEndpoint : String := "/api/search"

/- ---- Durable client state: localStorage writes (src/unnamed/part_004) ---- -/

/-- Browser local storage modelled as a list of key-value entries with
unique keys maintained by `setItem`. -/
structure BrowserStorage where
  entries : List (String × String)
deriving DecidableEq

/-- `localStorage.setItem`. -/
def storageSetItem (st : BrowserStorage) (k v : String) : BrowserStorage :=
  ⟨(k, v) :: st.entries.filter (fun p => !(p.1 == k))⟩

/-- `localStorage.removeItem`. -/
def storageRemoveItem (st : BrowserStorage) (k : String) : BrowserStorage :=
  ⟨st.entries.filter (fun p => !(p.1 == k))⟩

/-- Every client operation that writes browser local storage, collected
from the repository sources: `toggleTheme` and `toggleLeftNav` in the
AppContext (src/unnamed/part_004 lines 41-51), `login` success and
`logout` and the failed `checkAuth` in the AuthContext
(src/unnamed/part_004 lines 176, 205, 226).  No other source file calls
`localStorage.setItem` or `localStorage.removeItem`. -/
inductive StorageWriteOp where
  | themeToggle (newTheme : String)
  | leftNavToggle (newCollapsed : Bool)
  | loginStore (accessToken : String)
  | logoutClear
  | checkAuthFailClear
deriving DecidableEq

/-- Effect of each storage-writing client operation on local storage. -/
def applyStorageOp (st : BrowserStorage) : StorageWriteOp → BrowserStorage
  | StorageWriteOp.themeToggle nt => storageSetItem st "theme" nt
  | StorageWriteOp.leftNavToggle b =>
      storageSetItem st "leftNavCollapsed" (if b then "true" else "false")
  | StorageWriteOp.loginStore tok => storageSetItem st "token" tok
  | StorageWriteOp.logoutClear => storageRemoveItem st "token"
  | StorageWriteOp.checkAuthFailClear => storageRemoveItem st "token"

/-- Local storage contents after a sequence of client operations starting
from empty storage. -/
def runStorageOps (ops : List StorageWriteOp) : BrowserStorage :=
  ops.foldl applyStorageOp ⟨[]⟩

/-- The keys currently present in local storage: the durable client-side
state of the application. -/
def durableKeys (st : BrowserStorage) : List String :=
  st.entries.map (fun p => p.1)

/- ---- DataView panel: query extraction and execution (src/unnamed/part_000) ---- -/

/-- The characters matched by the JavaScript regex class backslash-s that
can occur in markdown text (space, tab, line feed, carriage return,
vertical tab, form feed). -/
def jsWhitespace (c : Char) : Bool :=
  c = ' ' || c = '\t' || c = '\n' || c = '\r' || c = '\x0b' || c = '\x0c'

/-- Index of the first occurrence of `pat` as a contiguous sublist of `s`,
mirroring how a regex engine finds the leftmost literal match. -/
def findSub (pat : List Char) : List Char → Option Nat
  | [] => if pat.isEmpty then some 0 else none
  | c :: rest =>
      if List.isPrefixOf pat (c :: rest) then some 0
      else (findSub pat rest).map (fun n => n + 1)

/-- `String.prototype.includes` on character lists. -/
def containsSub (pat s : List Char) : Bool := (findSub pat s).isSome

/-- The literal head of the dataview regex: three backticks then `dataview`. -/
def dataviewOpenMarker : List Char := "```dataview".toList

/-- The closing fence literal of the dataview regex: three backticks. -/
def dataviewCloseMarker : List Char := "```".toList

/-- One pass of the global regex loop over the dataview extraction regex
(src/unnamed/part_000 line 42, the regex matching three backticks,
`dataview`, one or more whitespace characters, a lazily captured body, and
a closing three-backtick fence).  At each candidate start the engine needs
the open marker followed by at least one whitespace character; the greedy
whitespace run is consumed and the lazy body extends to the first closing
fence; the search then resumes after the fence.  If the open marker is not
followed by whitespace the search resumes one character later; if no
closing fence follows, no further match exists (any later open marker
would itself contain a fence) and the loop ends.  Fuel bounds the
recursion; each step consumes at least one character, so the content
length plus one is always enough. -/
def scanDataviewBlocks : Nat → List Char → List (List Char)
  | 0, _ => []
  | fuel + 1, s =>
      match findSub dataviewOpenMarker s with
      | none => []
      | some i =>
          let afterOpen := s.drop (i + dataviewOpenMarker.length)
          let wsLen := (afterOpen.takeWhile jsWhitespace).length
          if wsLen = 0 then scanDataviewBlocks fuel (s.drop (i + 1))
          else
            let body := afterOpen.drop wsLen
            match findSub dataviewCloseMarker body with
            | none => []
            | some q =>
                body.take q ::
                  scanDataviewBlocks fuel (body.drop (q + dataviewCloseMarker.length))

/-- All bodies captured by the dataview regex over the content, in order of
appearance. -/
def extractBlocks (content : List Char) : List (List Char) :=
  scanDataviewBlocks (content.length + 1) content

/-- A `DataviewQuery` DTO (src/unnamed/part_000 lines 9-13). -/
structure DataviewQuery where
  type : String
  source : List Char
  id : String
deriving DecidableEq

/-- Query ids are the string `query-` followed by the running count of
queries pushed so far (src/unnamed/part_000 line 50). -/
def queryId (n : Nat) : String := "query-" ++ toString n

/-- Loop body of `extractQueries` (src/unnamed/part_000 lines 48-65): a
captured block containing `TABLE` is pushed as a table query, otherwise
one containing `LIST` as a list query, otherwise it is skipped; the id
uses the number of queries pushed before it. -/
def extractStep (acc : List DataviewQuery) (block : List Char) :
    List DataviewQuery :=
  if containsSub "TABLE".toList block then
    acc ++ [⟨"table", block, queryId acc.length⟩]
  else if containsSub "LIST".toList block then
    acc ++ [⟨"list", block, queryId acc.length⟩]
  else acc

/-- `extractQueries` (src/unnamed/part_000 lines 40-68): run the regex
loop and keep the TABLE/LIST blocks as queries. -/
def extractQueries (content : List Char) : List DataviewQuery :=
  (extractBlocks content).foldl extractStep []

/-- A captured block is kept by the extraction loop exactly when it
contains `TABLE` or `LIST`. -/
def blockKept (block : List Char) : Bool :=
  containsSub "TABLE".toList block || containsSub "LIST".toList block

/-- The type tag the loop assigns to a kept block. -/
def blockType (block : List Char) : String :=
  if containsSub "TABLE".toList block then "table" else "list"

/-- Specification-side description of the extraction, enumerating kept
blocks with consecutive ids starting at `n`. -/
def enumQueriesFrom (n : Nat) : List (List Char) → List DataviewQuery
  | [] => []
  | b :: rest =>
      if blockKept b then ⟨blockType b, b, queryId n⟩ :: enumQueriesFrom (n + 1) rest
      else enumQueriesFrom n rest

/-- Specification-side description of the extraction: keep exactly the
captured blocks containing TABLE or LIST and assign them the ids query-0,
query-1, ... in order of appearance. -/
def enumQueries (blocks : List (List Char)) : List DataviewQuery :=
  enumQueriesFrom 0 blocks

/-- The requests issued by `executeQueries` (src/unnamed/part_000
lines 75-81): one POST to the dataview execute endpoint per extracted
query, carrying the query's captured source text. -/
def executeRequests (content : List Char) : List (String × List Char) :=
  (extractQueries content).map (fun q => (dataviewPanelExecuteEndpoint, q.source))

/-- Successful response body of the dataview execute endpoint:
`response.data.columns` and `response.data.data` may each be absent
(src/unnamed/part_000 lines 85-86).  Row cells are modelled as strings. -/
structure DataviewApiSuccess where
  columns : Option (List String)
  data : Option (List (List String))
deriving DecidableEq

/-- Failure of a dataview execute request: `err.response?.data?.error`
may be absent (src/unnamed/part_000 line 94). -/
structure DataviewApiFailure where
  errorMsg : Option String
deriving DecidableEq

/-- A `DataviewResult` DTO (src/unnamed/part_000 lines 15-20). -/
structure DataviewResult where
  id : String
  columns : List String
  data : List (List String)
  error : Option String
deriving DecidableEq

/-- The per-query body of the `executeQueries` loop (src/unnamed/part_000
lines 76-96): a successful request stores the columns and rows with
missing fields defaulted to empty, a failed request is caught for that
query alone and stored as an error result under the query's id. -/
def resultFor (backend : List Char → Except DataviewApiFailure DataviewApiSuccess)
    (q : DataviewQuery) : DataviewResult :=
  match backend q.source with
  | Except.ok r => ⟨q.id, r.columns.getD [], r.data.getD [], none⟩
  | Except.error e =>
      ⟨q.id, [], [], some (e.errorMsg.getD "Failed to execute query")⟩

/-- The `executeQueries` loop (src/unnamed/part_000 lines 73-97): iterate
over the queries, storing each query's result under its id in order. -/
def executeQueriesLoop
    (backend : List Char → Except DataviewApiFailure DataviewApiSuccess)
    (queries : List DataviewQuery) : List (String × DataviewResult) :=
  queries.foldl (fun acc q => acc ++ [(q.id, resultFor backend q)]) []

/-- Lookup of a query's entry in the accumulated results record. -/
def resultsLookup (results : List (String × DataviewResult)) (id : String) :
    Option DataviewResult :=
  (results.find? (fun p => p.1 == id)).map (fun p => p.2)

/- ---- Data-fetching layer retry (src/unnamed/part_001) ---- -/

/-- The react-query client's configured retry count: `retry: 1`
(src/unnamed/part_001 lines 11-18). -/
def queryClientRetry : Nat := 1

/-- Retries configured on the plain axios call sites: none of them wraps
its request in any retry logic, so a failed axios request is never
reissued automatically. -/
def axiosRetryCount : Nat := 0

/-- Retries configured in the `apiService` fetch wrapper
(src/src/useSearch.tsx lines 121-169): the wrapper catches, logs and
re-throws; it never reissues the request. -/
def apiServiceRetryCount : Nat := 0

/-- The automatic retry limits of every request mechanism in the client. -/
def clientRetryLimits : List Nat :=
  [queryClientRetry, axiosRetryCount, apiServiceRetryCount]

/-- Modelled from the spec: the react-query data-fetching layer (the
library itself is not part of the repository; src/unnamed/part_001 only
configures it) makes the initial attempt and, while attempts fail and the
configured retry budget is not exhausted, retries the request once per
failure, stopping at the first success.  `outcomes n` is the success of
the n-th attempt; the value is the total number of attempts made. -/
def attemptsMade (outcomes : Nat → Bool) : Nat → Nat → Nat
  | 0, _ => 1
  | retriesLeft + 1, i =>
      if outcomes i then 1 else 1 + attemptsMade outcomes retriesLeft (i + 1)

/- ---- Kanban board drag-and-drop (src/src/components/Toast.tsx, KanbanBoard) ---- -/

/-- A `KanbanItem` DTO (src/src/components/Toast.tsx lines 118-124). -/
structure KanbanItem where
  id : String
  content : String
  tags : List String
  dueDate : Option String
  priority : Option String
deriving DecidableEq

/-- A `KanbanColumn` DTO (src/src/components/Toast.tsx lines 126-130). -/
structure KanbanColumn where
  id : String
  title : String
  items : List KanbanItem
deriving DecidableEq

/-- The columns record `Record<string, KanbanColumn>` as an association
list from record key to column. -/
def KanbanColumns := List (String × KanbanColumn)

/-- One end of a drag: the droppable id names the column record key and
the index the position inside its item list. -/
structure DragLocation where
  droppableId : String
  index : Nat
deriving DecidableEq

/-- The drop result delivered by the drag-and-drop library: the
destination is absent when the card was dropped outside any column. -/
structure DragResult where
  source : DragLocation
  destination : Option DragLocation
deriving DecidableEq

/-- Record read `columns[key]`. -/
def colsLookup (cols : KanbanColumns) (key : String) : Option KanbanColumn :=
  (cols.find? (fun p => p.1 == key)).map (fun p => p.2)

/-- In-place mutation of the column stored under `key`. -/
def colsUpdate (cols : KanbanColumns) (key : String)
    (f : KanbanColumn → KanbanColumn) : KanbanColumns :=
  cols.map (fun p => if p.1 == key then (p.1, f p.2) else p)

/-- `handleDragEnd` (src/src/components/Toast.tsx lines 162-199), the state
update only: return unchanged when the board is read-only, the drop has no
destination, or source and destination coincide; otherwise splice the item
out of the source column at the source index and splice it into the
destination column at the destination index.  The two `colsUpdate` calls
mirror the in-place splices on the shallowly copied record: when source
and destination name the same column the insertion acts on the list the
removal produced.  A missing source column makes the original throw before
any state update, so the state is unchanged; an out-of-range source index
cannot be produced by the drag-and-drop library. -/
def handleDragEnd (readOnly : Bool) (cols : KanbanColumns)
    (result : DragResult) : KanbanColumns :=
  if readOnly then cols
  else
    match result.destination with
    | none => cols
    | some destination =>
        if result.source.droppableId = destination.droppableId ∧
            result.source.index = destination.index then cols
        else
          match colsLookup cols result.source.droppableId with
          | none => cols
          | some sourceColumn =>
              match sourceColumn.items.get? result.source.index with
              | none => cols
              | some movedItem =>
                  colsUpdate
                    (colsUpdate cols result.source.droppableId
                      (fun c => { c with items := c.items.eraseIdx result.source.index }))
                    destination.droppableId
                    (fun c => { c with items := c.items.insertIdx destination.index movedItem })

/- ---- Debounced auto-save and search (src/unnamed/part_000, src/src/search.tsx) ---- -/

/-- Modelled from the spec: the `useDebounce` hook (imported from
src/hooks/useDebounce, a file absent from the repository snapshot) delays
a changing value by a fixed interval, so the debounced value takes on an
input value only once it has remained unchanged for the whole interval.
The input is a time-stamped list of edits with strictly increasing times;
an edit's value is emitted at its time plus the interval unless a later
edit arrives within the interval and cancels it; the last edit always
fires. -/
def debounceFires (d : Nat) : List (Nat × String) → List (Nat × String)
  | [] => []
  | [(t, v)] => [(t + d, v)]
  | (t, v) :: (t2, v2) :: rest =>
      if t + d < t2 then (t + d, v) :: debounceFires d ((t2, v2) :: rest)
      else debounceFires d ((t2, v2) :: rest)

/-- The Editor auto-save effect (src/unnamed/part_000 lines 239-256): each
time the debounced content updates, the content is saved only when it is
non-empty (truthiness guard) and differs from `originalContent`, which is
then set to the saved content. -/
def editorAutoSaves (lastSaved : String) : List (Nat × String) → List (Nat × String)
  | [] => []
  | (t, v) :: rest =>
      if v ≠ "" ∧ v ≠ lastSaved then (t, v) :: editorAutoSaves v rest
      else editorAutoSaves lastSaved rest

/-- Auto-save requests issued for an edit trace: the debounced updates,
filtered and threaded through the changed-content guard. -/
def editorSaveTrace (d : Nat) (originalContent : String)
    (edits : List (Nat × String)) : List (Nat × String) :=
  editorAutoSaves originalContent (debounceFires d edits)

/-- The Search component effect (src/src/search.tsx lines 41-47): a search
request is issued at each debounced query update whose value is longer
than two characters. -/
def searchRequestTrace (d : Nat) (edits : List (Nat × String)) :
    List (Nat × String) :=
  (debounceFires d edits).filter (fun p => 2 < p.2.length)

/-- The input remained unchanged during the whole interval after time `e`:
every edit happens at or before `e`, or strictly after `e + d`. -/
def stableWindow (edits : List (Nat × String)) (e d : Nat) : Prop :=
  ∀ p ∈ edits, p.1 ≤ e ∨ e + d < p.1

/- ===================== THEOREMS ===================== -/

/-- Helper: one zoom operation keeps the scale inside the closed
interval from 1/2 to 2. -/
theorem applyZoomOp_mem (s : ℚ) (op : ZoomOp) (h1 : 1/2 ≤ s) (h2 : s ≤ 2) :
    1/2 ≤ applyZoomOp s op ∧ applyZoomOp s op ≤ 2 := by
  cases op with
  | zoomIn =>
      constructor
      · exact le_min (by linarith) (by norm_num)
      · exact min_le_right _ _
  | zoomOut =>
      constructor
      · exact le_max_right _ _
      · exact max_le (by linarith) (by norm_num)
  | zoomReset =>
      constructor <;> norm_num [applyZoomOp, handleZoomReset]

/-- Helper: folding zoom operations from any scale in the interval stays
in the interval. -/
theorem foldl_applyZoomOp_mem (ops : List ZoomOp) :
    ∀ s : ℚ, 1/2 ≤ s → s ≤ 2 →
      1/2 ≤ ops.foldl applyZoomOp s ∧ ops.foldl applyZoomOp s ≤ 2 := by
  induction ops with
  | nil => intro s h1 h2; exact ⟨h1, h2⟩
  | cons op rest ih =>
      intro s h1 h2
      have h := applyZoomOp_mem s op h1 h2
      simpa [List.foldl] using ih (applyZoomOp s op) h.1 h.2

/-- C10: starting from the initial scale 1.0, any sequence of zoom-in,
zoom-out and zoom-reset operations leaves the PDF viewer scale in the
closed interval from 0.5 to 2.0; moreover zoom-in never produces a value
above 2.0 and zoom-out never produces a value below 0.5. -/
theorem pdf_zoom_scale_bounded (ops : List ZoomOp) :
    (1/2 ≤ scaleAfter ops ∧ scaleAfter ops ≤ 2) ∧
    (∀ s : ℚ, handleZoomIn s ≤ 2) ∧
    (∀ s : ℚ, 1/2 ≤ handleZoomOut s) ∧
    pdfInitialScale = 1 := by
  refine ⟨?_, ?_, ?_, rfl⟩
  · exact foldl_applyZoomOp_mem ops pdfInitialScale (by norm_num [pdfInitialScale])
      (by norm_num [pdfInitialScale])
  · intro s; exact min_le_right _ _
  · intro s; exact le_max_right _ _

/-- C3: a 401 response delivered to the response interceptor clears the
stored bearer token, clears the current user, and redirects to /login. -/
theorem interceptor_401_logs_out (e : HttpFailure) (s : AuthClientState)
    (resp : HttpFailureResponse) (hresp : e.response = some resp)
    (hstatus : resp.status = 401) :
    (onResponseError e s).token = none ∧
    (onResponseError e s).user = none ∧
    (onResponseError e s).route = "/login" := by
  simp [onResponseError, hresp, hstatus, authLogout]

/-- Witness for C3 at a concrete 401 failure and a logged-in state. -/
theorem interceptor_401_logs_out_witness :
    (onResponseError ⟨some ⟨401⟩⟩
        ⟨some "tok123", some ⟨"alice", none, none, none⟩, "/dashboard"⟩).token = none ∧
    (onResponseError ⟨some ⟨401⟩⟩
        ⟨some "tok123", some ⟨"alice", none, none, none⟩, "/dashboard"⟩).user = none ∧
    (onResponseError ⟨some ⟨401⟩⟩
        ⟨some "tok123", some ⟨"alice", none, none, none⟩, "/dashboard"⟩).route = "/login" :=
  interceptor_401_logs_out ⟨some ⟨401⟩⟩
    ⟨some "tok123", some ⟨"alice", none, none, none⟩, "/dashboard"⟩ ⟨401⟩ rfl rfl

/-- C4: whatever HTML the Reader component injects into the document is
exactly the DOMPurify sanitization of the HTML string the backend render
endpoint returned; unsanitized backend output is never injected. -/
theorem reader_only_injects_sanitized (sanitize : String → String)
    (outcome : Except String String) (h : String)
    (hinj : readerView sanitize outcome = ReaderView.injectedHtml h) :
    ∃ backendHtml, outcome = Except.ok backendHtml ∧ h = sanitize backendHtml := by
  cases outcome with
  | error e => simp [readerView] at hinj
  | ok html =>
      refine ⟨html, rfl, ?_⟩
      simpa [readerView] using hinj.symm

/-- Witness for C4 at a concrete sanitizer and backend response. -/
theorem reader_only_injects_sanitized_witness :
    ∃ backendHtml,
      (Except.ok "<b>hi</b>" : Except String String) = Except.ok backendHtml ∧
      (fun s => String.append "safe:" s) "<b>hi</b>" =
        (fun s => String.append "safe:" s) backendHtml :=
  reader_only_injects_sanitized (fun s => String.append "safe:" s)
    (Except.ok "<b>hi</b>") (String.append "safe:" "<b>hi</b>") rfl

/-- C5 counterexample: the Reader component, the repository's markdown
rendering call site cited by the spec, posts to /api/render/markdown, not
to the endpoint /api/markdown/render the claim names; the apiService
wrappers likewise use /api/dataview/query, /api/pdf/export and
/api/search instead of the claimed endpoints. -/
theorem endpoints_claim_counterexample :
    readerRenderEndpoint ≠ "/api/markdown/render" ∧
    dataViewAPIExecuteEndpoint ≠ "/api/dataview/execute" ∧
    markdownAPIExportPdfEndpoint ≠ "/api/export/pdf" ∧
    searchAPIEndpoint ≠ "/api/search/query" := by
  refine ⟨?_, ?_, ?_, ?_⟩ <;> decide

/-- C5 amended: the kanban parse, PDF viewer export, dataview panel
execution and the search request sites use /api/kanban/parse,
/api/export/pdf, /api/dataview/execute and /api/search/query, and the
markdownAPI wrapper uses /api/markdown/render; but the Reader posts
markdown rendering to /api/render/markdown, and the apiService wrappers
post dataview execution to /api/dataview/query, PDF export to
/api/pdf/export and search to /api/search. -/
theorem endpoints_per_call_site :
    kanbanParseEndpoint = "/api/kanban/parse" ∧
    pdfViewerExportEndpoint = "/api/export/pdf" ∧
    dataviewPanelExecuteEndpoint = "/api/dataview/execute" ∧
    searchComponentQueryEndpoint = "/api/search/query" ∧
    useSearchQueryEndpoint = "/api/search/query" ∧
    markdownAPIRenderEndpoint = "/api/markdown/render" ∧
    readerRenderEndpoint = "/api/render/markdown" ∧
    dataViewAPIExecuteEndpoint = "/api/dataview/query" ∧
    markdownAPIExportPdfEndpoint = "/api/pdf/export" ∧
    searchAPIEndpoint = "/api/search" :=
  ⟨rfl, rfl, rfl, rfl, rfl, rfl, rfl, rfl, rfl, rfl⟩

/-- C6 counterexample: toggling the theme durably stores the key `theme`
in local storage, and `theme` is not the auth token key, so the auth
bearer token is not the only durable client-side state. -/
theorem durable_state_counterexample :
    durableKeys (runStorageOps [StorageWriteOp.themeToggle "dark"]) = ["theme"] ∧
    ("theme" : String) ≠ "token" := by
  constructor
  · rfl
  · decide

/-- Helper: keys present after `storageSetItem` are the new key or an old key. -/
theorem durableKeys_setItem (st : BrowserStorage) (k v key : String)
    (h : key ∈ durableKeys (storageSetItem st k v)) :
    key = k ∨ key ∈ durableKeys st := by
  simp only [durableKeys, storageSetItem, List.map_cons, List.mem_cons] at h
  rcases h with h | h
  · exact Or.inl h
  · right
    simp only [List.mem_map] at h
    rcases h with ⟨p, hp, hpk⟩
    exact List.mem_map.mpr ⟨p, List.mem_of_mem_filter hp, hpk⟩

/-- Helper: `storageRemoveItem` only removes keys. -/
theorem durableKeys_removeItem (st : BrowserStorage) (k key : String)
    (h : key ∈ durableKeys (storageRemoveItem st k)) :
    key ∈ durableKeys st := by
  simp only [durableKeys, storageRemoveItem, List.mem_map] at h ⊢
  rcases h with ⟨p, hp, hpk⟩
  exact ⟨p, List.mem_of_mem_filter hp, hpk⟩

/-- Helper: one client storage operation only ever introduces the keys
`token`, `theme` and `leftNavCollapsed`. -/
theorem durableKeys_applyStorageOp (st : BrowserStorage) (op : StorageWriteOp)
    (key : String) (h : key ∈ durableKeys (applyStorageOp st op)) :
    key = "token" ∨ key = "theme" ∨ key = "leftNavCollapsed" ∨
      key ∈ durableKeys st := by
  cases op with
  | themeToggle nt =>
      rcases durableKeys_setItem st _ _ _ h with h1 | h1
      · exact Or.inr (Or.inl h1)
      · exact Or.inr (Or.inr (Or.inr h1))
  | leftNavToggle b =>
      rcases durableKeys_setItem st _ _ _ h with h1 | h1
      · exact Or.inr (Or.inr (Or.inl h1))
      · exact Or.inr (Or.inr (Or.inr h1))
  | loginStore tok =>
      rcases durableKeys_setItem st _ _ _ h with h1 | h1
      · exact Or.inl h1
      · exact Or.inr (Or.inr (Or.inr h1))
  | logoutClear =>
      exact Or.inr (Or.inr (Or.inr (durableKeys_removeItem st _ _ h)))
  | checkAuthFailClear =>
      exact Or.inr (Or.inr (Or.inr (durableKeys_removeItem st _ _ h)))

/-- Helper: folding client storage operations from a storage whose keys
are all in the allowed set keeps every key in the allowed set. -/
theorem durableKeys_foldl (ops : List StorageWriteOp) :
    ∀ st : BrowserStorage,
      (∀ k ∈ durableKeys st,
        k = "token" ∨ k = "theme" ∨ k = "leftNavCollapsed") →
      ∀ key ∈ durableKeys (ops.foldl applyStorageOp st),
        key = "token" ∨ key = "theme" ∨ key = "leftNavCollapsed" := by
  induction ops with
  | nil => intro st hst key hkey; exact hst key hkey
  | cons op rest ih =>
      intro st hst key hkey
      refine ih (applyStorageOp st op) ?_ key hkey
      intro k hk
      rcases durableKeys_applyStorageOp st op k hk with h | h | h | h
      · exact Or.inl h
      · exact Or.inr (Or.inl h)
      · exact Or.inr (Or.inr h)
      · exact hst k h

/-- C6 amended: across every sequence of client operations, the durable
client-side state is confined to the three local-storage keys `token`
(auth bearer token), `theme` and `leftNavCollapsed` (the persisted UI
preferences); everything else is transient component state. -/
theorem durable_state_is_three_keys (ops : List StorageWriteOp) (key : String)
    (h : key ∈ durableKeys (runStorageOps ops)) :
    key = "token" ∨ key = "theme" ∨ key = "leftNavCollapsed" := by
  refine durableKeys_foldl ops ⟨[]⟩ ?_ key h
  intro k hk
  simp [durableKeys] at hk

/-- Witness for C6 amended at a concrete operation sequence. -/
theorem durable_state_is_three_keys_witness :
    ("theme" : String) = "token" ∨ ("theme" : String) = "theme" ∨
      ("theme" : String) = "leftNavCollapsed" :=
  durable_state_is_three_keys [StorageWriteOp.themeToggle "dark"] "theme"
    (by decide)

/-- Helper: running the extraction loop from any accumulator appends the
enumeration of the remaining blocks, ids continuing from the accumulator
length. -/
theorem foldl_extractStep (blocks : List (List Char)) :
    ∀ acc : List DataviewQuery,
      blocks.foldl extractStep acc = acc ++ enumQueriesFrom acc.length blocks := by
  induction blocks with
  | nil => intro acc; simp [enumQueriesFrom]
  | cons b rest ih =>
      intro acc
      cases hT : containsSub "TABLE".toList b with
      | true =>
          have hkept : blockKept b = true := by unfold blockKept; rw [hT]; simp
          have htype : blockType b = "table" := by unfold blockType; rw [hT]; simp
          have hstep : extractStep acc b = acc ++ [⟨"table", b, queryId acc.length⟩] := by
            unfold extractStep; rw [hT]; simp
          simp only [List.foldl_cons, hstep, ih (acc ++ [⟨"table", b, queryId acc.length⟩])]
          simp [enumQueriesFrom, hkept, htype, List.append_assoc]
      | false =>
          cases hL : containsSub "LIST".toList b with
          | true =>
              have hkept : blockKept b = true := by unfold blockKept; rw [hT, hL]; simp
              have htype : blockType b = "list" := by unfold blockType; rw [hT]; simp
              have hstep : extractStep acc b = acc ++ [⟨"list", b, queryId acc.length⟩] := by
                unfold extractStep; rw [hT, hL]; simp
              simp only [List.foldl_cons, hstep, ih (acc ++ [⟨"list", b, queryId acc.length⟩])]
              simp [enumQueriesFrom, hkept, htype, List.append_assoc]
          | false =>
              have hkept : blockKept b = false := by unfold blockKept; rw [hT, hL]; simp
              have hstep : extractStep acc b = acc := by
                unfold extractStep; rw [hT, hL]; simp
              simp only [List.foldl_cons, hstep, ih acc]
              simp [enumQueriesFrom, hkept]

/-- C2 counterexample: the content consisting of a single fenced dataview
block whose body `foo` contains neither TABLE nor LIST is matched by the
extraction regex (one captured block), yet the panel extracts no query
for it and posts nothing, so the extracted queries are not exactly the
regex-matched blocks. -/
theorem dataview_extraction_counterexample :
    (extractBlocks ("```dataview\nfoo\n```".toList)).length = 1 ∧
    extractQueries ("```dataview\nfoo\n```".toList) = [] ∧
    executeRequests ("```dataview\nfoo\n```".toList) = [] := by
  refine ⟨?_, ?_, ?_⟩ <;> rfl

/-- C2 amended: the dataview panel extracts exactly those regex-matched
fenced dataview blocks whose text contains TABLE or LIST, assigns them the
ids query-0, query-1, ... in order of appearance, and posts each extracted
block's text to the /api/dataview/execute endpoint. -/
theorem dataview_extraction_filters_and_enumerates (content : List Char) :
    extractQueries content = enumQueries (extractBlocks content) ∧
    executeRequests content =
      (enumQueries (extractBlocks content)).map
        (fun q => (dataviewPanelExecuteEndpoint, q.source)) := by
  have h : extractQueries content = enumQueries (extractBlocks content) := by
    have h0 := foldl_extractStep (extractBlocks content) []
    simpa [extractQueries, enumQueries] using h0
  exact ⟨h, by simp [executeRequests, h]⟩

/-- Helper: folding an append-one loop body is a map. -/
theorem foldl_append_singleton (f : DataviewQuery → String × DataviewResult)
    (l : List DataviewQuery) :
    ∀ acc, l.foldl (fun acc q => acc ++ [f q]) acc = acc ++ l.map f := by
  induction l with
  | nil => intro acc; simp
  | cons q rest ih => intro acc; simp [ih (acc ++ [f q])]

/-- Helper: the results record built by the loop, looked up at a query's
id, returns exactly that query's entry when the ids are distinct. -/
theorem resultsLookup_map_self (g : DataviewQuery → DataviewResult)
    (queries : List DataviewQuery)
    (hnodup : (queries.map (fun q => q.id)).Nodup)
    (q : DataviewQuery) (hq : q ∈ queries) :
    resultsLookup (queries.map (fun q2 => (q2.id, g q2))) q.id = some (g q) := by
  induction queries with
  | nil => cases hq
  | cons p rest ih =>
      simp only [List.map_cons, List.nodup_cons] at hnodup
      rcases List.mem_cons.mp hq with h | h
      · subst h
        simp [resultsLookup]
      · have hne : (p.id == q.id) = false := by
          have hmem : q.id ∈ rest.map (fun q2 => q2.id) :=
            List.mem_map.mpr ⟨q, h, rfl⟩
          have : p.id ≠ q.id := fun hcontra => hnodup.1 (hcontra ▸ hmem)
          simpa using this
        have htail := ih hnodup.2 h
        simpa [resultsLookup, List.find?_cons, hne] using htail

/-- C8: when the dataview panel executes the extracted queries, every
query's entry in the results record is a function of that query's own
backend outcome alone; a failed request is caught for that query and
recorded as an error result under that query's id, while every other
query still gets its own (successful) result — one failure never discards
another query's result. -/
theorem dataview_query_failures_isolated
    (backend : List Char → Except DataviewApiFailure DataviewApiSuccess)
    (queries : List DataviewQuery)
    (hnodup : (queries.map (fun q => q.id)).Nodup)
    (q : DataviewQuery) (hq : q ∈ queries) :
    executeQueriesLoop backend queries =
      queries.map (fun q2 => (q2.id, resultFor backend q2)) ∧
    resultsLookup (executeQueriesLoop backend queries) q.id =
      some (resultFor backend q) ∧
    (∀ e, backend q.source = Except.error e →
      resultsLookup (executeQueriesLoop backend queries) q.id =
        some ⟨q.id, [], [], some (e.errorMsg.getD "Failed to execute query")⟩) ∧
    (∀ r, backend q.source = Except.ok r →
      resultsLookup (executeQueriesLoop backend queries) q.id =
        some ⟨q.id, r.columns.getD [], r.data.getD [], none⟩) := by
  have hmap : executeQueriesLoop backend queries =
      queries.map (fun q2 => (q2.id, resultFor backend q2)) := by
    have h0 := foldl_append_singleton (fun q2 => (q2.id, resultFor backend q2)) queries []
    simpa [executeQueriesLoop] using h0
  have hlook : resultsLookup (executeQueriesLoop backend queries) q.id =
      some (resultFor backend q) := by
    rw [hmap]
    exact resultsLookup_map_self (resultFor backend) queries hnodup q hq
  refine ⟨hmap, hlook, ?_, ?_⟩
  · intro e he
    rw [hlook]
    simp [resultFor, he]
  · intro r hr
    rw [hlook]
    simp [resultFor, hr]

/-- Witness for C8: two table queries, the first failing with message
`boom`, the second succeeding; the failing query's id maps to the error
result. -/
theorem dataview_query_failures_isolated_witness :
    resultsLookup
      (executeQueriesLoop
        (fun src => if src = "TABLE a".toList then Except.error ⟨some "boom"⟩
          else Except.ok ⟨some ["c"], some [["v"]]⟩)
        [⟨"table", "TABLE a".toList, "query-0"⟩,
         ⟨"table", "TABLE b".toList, "query-1"⟩])
      "query-0" =
      some ⟨"query-0", [], [], some "boom"⟩ := by
  have h := dataview_query_failures_isolated
    (fun src => if src = "TABLE a".toList then Except.error ⟨some "boom"⟩
      else Except.ok ⟨some ["c"], some [["v"]]⟩)
    [⟨"table", "TABLE a".toList, "query-0"⟩,
     ⟨"table", "TABLE b".toList, "query-1"⟩]
    (by decide) ⟨"table", "TABLE a".toList, "query-0"⟩ (by decide)
  have h3 := h.2.2.1 ⟨some "boom"⟩ rfl
  simpa using h3

/-- Helper: the retry loop makes at most one attempt more than the retry
budget. -/
theorem attemptsMade_le (oc : Nat → Bool) :
    ∀ limit i, attemptsMade oc limit i ≤ limit + 1 := by
  intro limit
  induction limit with
  | zero => intro i; simp [attemptsMade]
  | succ n ih =>
      intro i
      by_cases h : oc i = true
      · simp [attemptsMade, h]
      · have hb : oc i = false := by simpa using h
        have := ih (i + 1)
        simp [attemptsMade, hb]
        omega

/-- C9: with the query client configured with `retry: 1`, a request whose
first attempt fails is retried exactly once (two attempts in total), and
every request mechanism of the client — the react-query layer and the
retry-free axios and fetch call sites — makes at most two attempts, so no
request is ever automatically retried more than once. -/
theorem data_fetching_retry_once (outcomes : Nat → Bool)
    (hfail : outcomes 0 = false) :
    attemptsMade outcomes queryClientRetry 0 = 2 ∧
    (∀ limit ∈ clientRetryLimits, ∀ oc : Nat → Bool, ∀ i,
      attemptsMade oc limit i ≤ 2) := by
  constructor
  · simp [attemptsMade, queryClientRetry, hfail]
  · intro limit hlimit oc i
    have hle : limit ≤ 1 := by
      simp [clientRetryLimits, queryClientRetry, axiosRetryCount,
        apiServiceRetryCount] at hlimit
      rcases hlimit with h | h | h <;> omega
    have := attemptsMade_le oc limit i
    omega

/-- Witness for C9 at an always-failing request. -/
theorem data_fetching_retry_once_witness :
    attemptsMade (fun _ => false) queryClientRetry 0 = 2 ∧
    attemptsMade (fun _ => false) queryClientRetry 0 ≤ 2 :=
  ⟨(data_fetching_retry_once (fun _ => false) rfl).1,
   (data_fetching_retry_once (fun _ => false) rfl).2 queryClientRetry
     (by decide) (fun _ => false) 0⟩

/-- Helper: reading the column record at the updated key applies the
update to the stored column. -/
theorem colsLookup_colsUpdate_self (cols : KanbanColumns) (key : String)
    (f : KanbanColumn → KanbanColumn) :
    colsLookup (colsUpdate cols key f) key = (colsLookup cols key).map f := by
  induction cols with
  | nil => rfl
  | cons p rest ih =>
      cases hpk : (p.1 == key) with
      | true =>
          have hstep : colsUpdate (p :: rest) key f = (p.1, f p.2) :: colsUpdate rest key f := by
            simp only [colsUpdate, List.map_cons]
            rw [if_pos hpk]
          rw [hstep]
          simp only [colsLookup]
          have hfind1 : List.find? (fun q => q.1 == key)
              ((p.1, f p.2) :: colsUpdate rest key f) = some (p.1, f p.2) :=
            List.find?_cons_of_pos _ hpk
          have hfind2 : List.find? (fun q => q.1 == key) (p :: rest) = some p :=
            List.find?_cons_of_pos _ hpk
          rw [hfind1, hfind2]
          simp
      | false =>
          simp only [colsUpdate, List.map_cons, hpk, if_false, Bool.false_eq_true]
          simp only [colsLookup, List.find?_cons, hpk] at ih ⊢
          exact ih

/-- Helper: reading the column record at any other key is unaffected by
the update. -/
theorem colsLookup_colsUpdate_ne (cols : KanbanColumns) (key key2 : String)
    (f : KanbanColumn → KanbanColumn) (h : key2 ≠ key) :
    colsLookup (colsUpdate cols key f) key2 = colsLookup cols key2 := by
  induction cols with
  | nil => rfl
  | cons p rest ih =>
      cases hpk : (p.1 == key) with
      | true =>
          have hp1 : p.1 = key := by simpa using hpk
          have hne2 : (p.1 == key2) = false := by
            simp [hp1]
            exact fun hcontra => h hcontra.symm
          simp only [colsUpdate, List.map_cons, hpk, if_true]
          simp only [colsLookup, List.find?_cons, hne2] at ih ⊢
          exact ih
      | false =>
          cases hpk2 : (p.1 == key2) with
          | true =>
              simp only [colsUpdate, List.map_cons, hpk, if_false, Bool.false_eq_true]
              simp [colsLookup, hpk2]
          | false =>
              simp only [colsUpdate, List.map_cons, hpk, if_false, Bool.false_eq_true]
              simp only [colsLookup, List.find?_cons, hpk2] at ih ⊢
              exact ih

/-- C1: on the kanban board, a read-only board, a drop without a
destination, and a drop at the source position all leave the columns
unchanged; a valid drop on a non-read-only board removes the dragged card
from the source column at the source index and inserts it into the
destination column at the destination index (acting on the single column
when source and destination coincide), while every other column — and
hence every other card's identity and relative order — is unchanged. -/
theorem kanban_handleDragEnd_moves_card (cols : KanbanColumns) (r : DragResult) :
    (handleDragEnd true cols r = cols) ∧
    (∀ ro, r.destination = none → handleDragEnd ro cols r = cols) ∧
    (∀ ro dest, r.destination = some dest →
      r.source.droppableId = dest.droppableId → r.source.index = dest.index →
      handleDragEnd ro cols r = cols) ∧
    (∀ dest srcCol moved,
      r.destination = some dest →
      ¬(r.source.droppableId = dest.droppableId ∧ r.source.index = dest.index) →
      colsLookup cols r.source.droppableId = some srcCol →
      srcCol.items.get? r.source.index = some moved →
      (r.source.droppableId = dest.droppableId →
        colsLookup (handleDragEnd false cols r) dest.droppableId =
          some { srcCol with items :=
            (srcCol.items.eraseIdx r.source.index).insertIdx dest.index moved }) ∧
      (∀ dstCol, r.source.droppableId ≠ dest.droppableId →
        colsLookup cols dest.droppableId = some dstCol →
        colsLookup (handleDragEnd false cols r) r.source.droppableId =
          some { srcCol with items := srcCol.items.eraseIdx r.source.index } ∧
        colsLookup (handleDragEnd false cols r) dest.droppableId =
          some { dstCol with items := dstCol.items.insertIdx dest.index moved }) ∧
      (∀ k, k ≠ r.source.droppableId → k ≠ dest.droppableId →
        colsLookup (handleDragEnd false cols r) k = colsLookup cols k)) := by
  refine ⟨by simp [handleDragEnd], ?_, ?_, ?_⟩
  · intro ro hdest
    cases ro <;> simp [handleDragEnd, hdest]
  · intro ro dest hdest hid hidx
    cases ro <;> simp [handleDragEnd, hdest, hid, hidx]
  · intro dest srcCol moved hdest hne hsrc hget
    have hget2 : srcCol.items[r.source.index]? = some moved := by
      simpa using hget
    have hred : handleDragEnd false cols r =
        colsUpdate (colsUpdate cols r.source.droppableId
          (fun c => { c with items := c.items.eraseIdx r.source.index }))
          dest.droppableId
          (fun c => { c with items := c.items.insertIdx dest.index moved }) := by
      simp [handleDragEnd, hdest, hsrc, hget2, hne]
    refine ⟨?_, ?_, ?_⟩
    · intro hid
      rw [hred, colsLookup_colsUpdate_self, ← hid, colsLookup_colsUpdate_self, hsrc]
      rfl
    · intro dstCol hidne hdst
      constructor
      · rw [hred, colsLookup_colsUpdate_ne _ _ _ _ hidne,
          colsLookup_colsUpdate_self, hsrc]
        rfl
      · rw [hred, colsLookup_colsUpdate_self,
          colsLookup_colsUpdate_ne _ _ _ _ (fun hcontra => hidne hcontra.symm), hdst]
        rfl
    · intro k hk1 hk2
      rw [hred, colsLookup_colsUpdate_ne _ _ _ _ hk2,
        colsLookup_colsUpdate_ne _ _ _ _ hk1]

/-- Witness for C1: moving the first card of the `todo` column to position
one of the `doing` column places it after that column's card. -/
theorem kanban_handleDragEnd_moves_card_witness :
    colsLookup
      (handleDragEnd false
        [("todo", ⟨"todo", "To Do",
            [⟨"a", "Task A", [], none, none⟩, ⟨"b", "Task B", [], none, none⟩]⟩),
         ("doing", ⟨"doing", "Doing", [⟨"c", "Task C", [], none, none⟩]⟩)]
        ⟨⟨"todo", 0⟩, some ⟨"doing", 1⟩⟩)
      "doing" =
      some ⟨"doing", "Doing",
        [⟨"c", "Task C", [], none, none⟩, ⟨"a", "Task A", [], none, none⟩]⟩ := by
  have h := (kanban_handleDragEnd_moves_card
      [("todo", ⟨"todo", "To Do",
          [⟨"a", "Task A", [], none, none⟩, ⟨"b", "Task B", [], none, none⟩]⟩),
       ("doing", ⟨"doing", "Doing", [⟨"c", "Task C", [], none, none⟩]⟩)]
      ⟨⟨"todo", 0⟩, some ⟨"doing", 1⟩⟩).2.2.2
    ⟨"doing", 1⟩ ⟨"todo", "To Do",
        [⟨"a", "Task A", [], none, none⟩, ⟨"b", "Task B", [], none, none⟩]⟩
    ⟨"a", "Task A", [], none, none⟩
    rfl (by decide) rfl rfl
  have h2 := (h.2.1 ⟨"doing", "Doing", [⟨"c", "Task C", [], none, none⟩]⟩
    (by decide) rfl).2
  simpa using h2

/-- Helper: every debounced update stems from an edit whose value stayed
unchanged for the whole interval: it fires exactly the interval after that
edit, and every other edit is at or before it or strictly after the
interval. -/
theorem debounceFires_sound (d : Nat) :
    ∀ edits : List (Nat × String), edits.Pairwise (fun a b => a.1 < b.1) →
      ∀ p ∈ debounceFires d edits,
        ∃ e, (e, p.2) ∈ edits ∧ p.1 = e + d ∧ stableWindow edits e d
  | [], _, p, hp => by simp [debounceFires] at hp
  | [(t, v)], _, p, hp => by
      simp only [debounceFires, List.mem_singleton] at hp
      subst hp
      refine ⟨t, by simp, rfl, ?_⟩
      intro q hq
      simp only [List.mem_singleton] at hq
      subst hq
      exact Or.inl (le_refl t)
  | (t, v) :: (t2, v2) :: rest, hpw, p, hp => by
      have hhead := (List.pairwise_cons.mp hpw).1
      have htail := (List.pairwise_cons.mp hpw).2
      have htlhead := (List.pairwise_cons.mp htail).1
      by_cases hlt : t + d < t2
      · simp only [debounceFires, if_pos hlt, List.mem_cons] at hp
        rcases hp with hp | hp
        · subst hp
          refine ⟨t, by simp, rfl, ?_⟩
          intro q hq
          rcases List.mem_cons.mp hq with hq | hq
          · subst hq; exact Or.inl (le_refl t)
          · rcases List.mem_cons.mp hq with hq | hq
            · subst hq; exact Or.inr hlt
            · exact Or.inr (lt_trans hlt (htlhead q hq))
        · rcases debounceFires_sound d ((t2, v2) :: rest) htail p hp with
            ⟨e, hmem, heq, hwin⟩
          refine ⟨e, List.mem_cons_of_mem _ hmem, heq, ?_⟩
          intro q hq
          rcases List.mem_cons.mp hq with hq | hq
          · subst hq
            exact Or.inl (le_of_lt (hhead _ hmem))
          · exact hwin q hq
      · simp only [debounceFires, if_neg hlt] at hp
        rcases debounceFires_sound d ((t2, v2) :: rest) htail p hp with
          ⟨e, hmem, heq, hwin⟩
        refine ⟨e, List.mem_cons_of_mem _ hmem, heq, ?_⟩
        intro q hq
        rcases List.mem_cons.mp hq with hq | hq
        · subst hq
          exact Or.inl (le_of_lt (hhead _ hmem))
        · exact hwin q hq

/-- Helper: the auto-save effect only ever emits debounced updates. -/
theorem editorAutoSaves_subset :
    ∀ (l : List (Nat × String)) (lastSaved : String) (p : Nat × String),
      p ∈ editorAutoSaves lastSaved l → p ∈ l
  | [], _, p, hp => by simp [editorAutoSaves] at hp
  | (t, v) :: rest, lastSaved, p, hp => by
      by_cases hc : v ≠ "" ∧ v ≠ lastSaved
      · simp only [editorAutoSaves, if_pos hc, List.mem_cons] at hp
        rcases hp with hp | hp
        · exact hp ▸ List.mem_cons_self _ _
        · exact List.mem_cons_of_mem _ (editorAutoSaves_subset rest v p hp)
      · simp only [editorAutoSaves, if_neg hc] at hp
        exact List.mem_cons_of_mem _ (editorAutoSaves_subset rest lastSaved p hp)

/-- Helper: each auto-saved content is non-empty and differs from the
previously saved content (initially the loaded original content). -/
theorem editorAutoSaves_chain :
    ∀ (l : List (Nat × String)) (lastSaved : String) (t0 : Nat),
      List.Chain (fun a b => b.2 ≠ "" ∧ b.2 ≠ a.2) (t0, lastSaved)
        (editorAutoSaves lastSaved l)
  | [], _, _ => List.Chain.nil
  | (t, v) :: rest, lastSaved, t0 => by
      by_cases hc : v ≠ "" ∧ v ≠ lastSaved
      · simp only [editorAutoSaves, if_pos hc]
        exact List.Chain.cons ⟨hc.1, hc.2⟩ (editorAutoSaves_chain rest v t)
      · simp only [editorAutoSaves, if_neg hc]
        exact editorAutoSaves_chain rest lastSaved t0

/-- C7: for every edit trace with strictly increasing timestamps, each
auto-save request and each search request is issued exactly the debounce
interval after an edit whose value then stayed unchanged for the whole
interval; each auto-save carries content that is non-empty and differs
from the last saved content; each search request carries a query longer
than two characters. -/
theorem debounced_save_and_search (d : Nat) (c0 : String)
    (edits : List (Nat × String))
    (hpw : edits.Pairwise (fun a b => a.1 < b.1)) :
    (∀ p ∈ editorSaveTrace d c0 edits,
      ∃ e, (e, p.2) ∈ edits ∧ p.1 = e + d ∧ stableWindow edits e d) ∧
    List.Chain (fun a b => b.2 ≠ "" ∧ b.2 ≠ a.2) (0, c0)
      (editorSaveTrace d c0 edits) ∧
    (∀ p ∈ searchRequestTrace d edits,
      (∃ e, (e, p.2) ∈ edits ∧ p.1 = e + d ∧ stableWindow edits e d) ∧
        2 < p.2.length) := by
  refine ⟨?_, editorAutoSaves_chain _ _ _, ?_⟩
  · intro p hp
    exact debounceFires_sound d edits hpw p
      (editorAutoSaves_subset _ _ _ hp)
  · intro p hp
    have hmemf : p ∈ debounceFires d edits := List.mem_of_mem_filter hp
    have hlen : 2 < p.2.length := by
      have hfilter := List.of_mem_filter hp
      simpa using hfilter
    exact ⟨debounceFires_sound d edits hpw p hmemf, hlen⟩

/-- Witness for C7: with interval three and edits at times zero and five,
the search request fired at time eight originates from the edit of
`hello` at time five, which stayed unchanged for the interval. -/
theorem debounced_save_and_search_witness :
    ∃ e, (e, ("hello" : String)) ∈ [(0, "a"), (5, "hello")] ∧
      (8 : Nat) = e + 3 ∧ stableWindow [(0, "a"), (5, "hello")] e 3 := by
  have h := (debounced_save_and_search 3 "" [(0, "a"), (5, "hello")]
    (by decide)).2.2
  have hp : ((8 : Nat), ("hello" : String)) ∈
      searchRequestTrace 3 [(0, "a"), (5, "hello")] := by decide
  exact (h (8, "hello") hp).1
